import Mathlib

/-!
# sudo-process-recorder: the audit pipeline, embedded and checked

A shallow embedding of the three translation units of the repository

* `src/sudo_process_recorder.cpp` (the Session Emitter, `io_open`),
* `src/syscall_interceptor.c`     (the Exec Interceptor, `execve`),
* `src/sudo_daemon_collector.cpp` (the Collector, `main`),

followed by the theorems about them.

Conventions of the embedding.

* A C string (and a `std::string`) is the list of its characters, the
  terminating NUL excluded; a `char` is a `Char`.
* A nullable pointer is an `Option`. A word of memory that the code reads as
  a pointer without owning it (what follows the NULL of an argument vector) is
  a `Word`: NULL, the address of a string, or an address that cannot be read.
* A NULL-terminated vector of strings handed over by the plugin host is a
  `List CStr`.
* System calls do not run: their outcomes are fields of an environment record
  (`OpenEnv`, `ExecEnv`) and what the code does to the outside world is
  returned as a list of effects.
* `int` arithmetic is carried out in `Int` and wrapped to 32 bits, the
  conversion to `size_t` is taken modulo `2^64`.
-/

namespace SudoRecorder

/-- The characters of a C string, terminator excluded. -/
abbrev CStr := List Char

/-- The string terminator. -/
def NUL : Char := Char.ofNat 0

/-- How `%d` (and `operator<<` on an `int`) prints a number. -/
def fmt_d (x : Int) : CStr :=
  if x < 0 then '-' :: Nat.toDigits 10 x.natAbs else Nat.toDigits 10 x.toNat

/-! ## `sudo_process_recorder.cpp` -/

/-- The loop of `find_kv` over the entries of a non-null list: the first entry
that starts with `key` (`strncmp(list[i], key, klen) == 0`) and carries `=`
right after it yields the rest of that entry. -/
def find_kv_loop (key : CStr) : List CStr → CStr
  | [] => []
  | e :: rest =>
    if e.take key.length = key ∧ e.get? key.length = some '=' then
      e.drop (key.length + 1)
    else find_kv_loop key rest

/-- `find_kv(list, key)`: the empty string for a null list and for a key that
no entry carries. -/
def find_kv (list : Option (List CStr)) (key : CStr) : CStr :=
  match list with
  | none => []
  | some l => find_kv_loop key l

/-- One character of `json_escape`: the `switch` of the source. -/
def json_escape_char (c : Char) : CStr :=
  if c = '\\' then ['\\', '\\']
  else if c = '\"' then ['\\', '\"']
  else if c = '\n' then ['\\', 'n']
  else if c = '\r' then ['\\', 'r']
  else if c = '\t' then ['\\', 't']
  else [c]

/-- `json_escape(s)`: the characters of `s` escaped one by one. -/
def json_escape : CStr → CStr
  | [] => []
  | c :: cs => json_escape_char c ++ json_escape cs

/-- The process-wide variables of the plugin. A `FILE*` and the host's
callback are kept as "is it non-null". -/
structure Globals where
  g_printf : Bool
  g_preload_lib_path : CStr
  g_daemon_sock : CStr
  g_log_file : CStr
  g_log_fp : Bool
deriving DecidableEq, Repr

/-- The initial values of the process-wide variables. -/
def Globals.init : Globals :=
  { g_printf := false
    g_preload_lib_path := "/usr/lib/syscall_interceptor.so".toList
    g_daemon_sock := "/run/sudo-process-recorder.sock".toList
    g_log_file := []
    g_log_fp := false }

/-- What the plugin does to the outside world. -/
inductive Effect where
  /-- A call of `setenv(name, value, 1)`. -/
  | setenv (name value : CStr)
  /-- Text written to the open log stream. -/
  | logWrite (text : CStr)
  /-- A call of the host's printf callback; `error` tells `SUDO_CONV_ERROR_MSG`
  from `SUDO_CONV_INFO_MSG`. -/
  | hostPrintf (error : Bool) (text : CStr)
  /-- A call of `sendto` on a datagram socket, with the address path and the
  payload; `delivered` is whether the call succeeded. -/
  | sendto (path payload : CStr) (delivered : Bool)
deriving DecidableEq, Repr

/-- The outcomes of the system calls `io_open` makes. -/
structure OpenEnv where
  /-- Whether `fopen(g_log_file, "a")` returns a stream. -/
  fopen_ok : Bool
  /-- The answer of `stat` on a path: `file_exists`. -/
  file_exists : CStr → Bool
  /-- The value of `getpid()`. -/
  pid : Int
  /-- Whether `socket(AF_UNIX, SOCK_DGRAM, 0)` returns a descriptor. -/
  socket_ok : Bool
  /-- Whether `sendto` succeeds. -/
  sendto_ok : Bool

/-- `send_to_daemon(sock_path, payload)`: nothing for an empty path or when no
socket can be made; otherwise one `sendto`, whose result is dropped. The path is
copied into the 108 bytes of `sun_path` by `snprintf`. -/
def send_to_daemon (env : OpenEnv) (sock_path payload : CStr) : List Effect :=
  if sock_path = [] then []
  else if !env.socket_ok then []
  else [Effect.sendto (sock_path.take 107) payload env.sendto_ok]

/-- `write_log(format, ...)`, given the text the format expands to: to the log
stream when there is one, else through the host's callback after a pass through
a 4096-byte buffer, else nowhere. -/
def write_log (g : Globals) (text : CStr) : List Effect :=
  if g.g_log_fp then [Effect.logWrite text]
  else if g.g_printf then [Effect.hostPrintf false (text.take 4095)]
  else []

/-- One entry of `parse_plugin_options`: an entry without `=` is skipped, the
key is what stands before the first `=`, the value what follows it. -/
def parse_plugin_option (g : Globals) (s : CStr) : Globals :=
  if '=' ∈ s then
    let k := s.takeWhile (· ≠ '=')
    let v := (s.dropWhile (· ≠ '=')).drop 1
    if k = "daemon_sock".toList then { g with g_daemon_sock := v }
    else if k = "preload_lib".toList then { g with g_preload_lib_path := v }
    else if k = "log_file".toList then { g with g_log_file := v }
    else g
  else g

/-- `parse_plugin_options(plugin_options)`. -/
def parse_plugin_options (g : Globals) (plugin_options : Option (List CStr)) : Globals :=
  match plugin_options with
  | none => g
  | some l => l.foldl parse_plugin_option g

/-- The `ppid.empty() ? "null" : ppid` of the payload. -/
def num_field (v : CStr) : CStr :=
  if v = [] then "null".toList else v

/-- The text streamed into `os` by `io_open` (lines 180-192). -/
def session_payload (user : CStr) (pid : Int)
    (ppid pgid runas_user runas_uid runas_gid command : CStr) : CStr :=
  "\x7b".toList
    ++ "\"basic_info\":\x7b".toList
    ++ "\"user\":\"".toList ++ json_escape user ++ "\",".toList
    ++ "\"pid\":".toList ++ fmt_d pid ++ ",".toList
    ++ "\"ppid\":".toList ++ num_field ppid ++ ",".toList
    ++ "\"pgid\":".toList ++ num_field pgid ++ ",".toList
    ++ "\"runas_user\":\"".toList ++ json_escape runas_user ++ "\",".toList
    ++ "\"runas_uid\":".toList ++ num_field runas_uid ++ ",".toList
    ++ "\"runas_gid\":".toList ++ num_field runas_gid ++ ",".toList
    ++ "\"command\":\"".toList ++ json_escape command ++ "\"".toList
    ++ "\x7d".toList
    ++ "\x7d".toList

/-- The payload `io_open` builds from the three metadata lists and the pid. -/
def io_open_payload (settings user_info command_info : Option (List CStr)) (pid : Int) : CStr :=
  session_payload (find_kv user_info "user".toList) pid
    (find_kv user_info "ppid".toList) (find_kv user_info "pgid".toList)
    (find_kv settings "runas_user".toList) (find_kv settings "runas_uid".toList)
    (find_kv settings "runas_gid".toList) (find_kv command_info "command".toList)

/-- What `io_open` leaves behind: the value returned to the host, the
process-wide variables, and the effects in the order they happen. -/
structure OpenResult where
  ret : Int
  globals : Globals
  effects : List Effect

/-- `io_open`. The arguments `version`, `conv`, `argc`, `argv`, `user_env` and
`errstr` are cast to void by the source and do not appear; `plugin_printf` is
whether the host passed a callback. -/
def io_open (g0 : Globals) (env : OpenEnv) (plugin_printf : Bool)
    (settings user_info command_info plugin_options : Option (List CStr)) : OpenResult :=
  let g1 := parse_plugin_options { g0 with g_printf := plugin_printf } plugin_options
  -- the log file is opened when one is configured
  let g2 := if g1.g_log_file ≠ [] then { g1 with g_log_fp := env.fopen_ok } else g1
  let warn :=
    if g1.g_log_file ≠ [] ∧ g2.g_log_fp = false ∧ g2.g_printf = true then
      [Effect.hostPrintf true
        ("Warning: Failed to open log file ".toList ++ g2.g_log_file ++ "\n".toList)]
    else []
  let user := find_kv user_info "user".toList
  let ppid := find_kv user_info "ppid".toList
  let command := find_kv command_info "command".toList
  let pid := env.pid
  let preload_enabled := g2.g_preload_lib_path ≠ [] ∧ env.file_exists g2.g_preload_lib_path = true
  let envs :=
    if preload_enabled then
      [Effect.setenv "LD_PRELOAD".toList g2.g_preload_lib_path,
       Effect.setenv "SUDO_DAEMON_SOCK".toList g2.g_daemon_sock,
       Effect.setenv "SUDO_LOG_FILE".toList
         (if g2.g_log_file ≠ [] then g2.g_log_file else "stdout".toList)]
    else []
  let logs :=
    write_log g2 "\n=== Basic Process Info ===\n".toList
    ++ write_log g2 ("User: ".toList ++ user ++ " | Command: ".toList ++ command
          ++ " | PID: ".toList ++ fmt_d pid ++ " | PPID: ".toList ++ ppid ++ "\n".toList)
    ++ write_log g2
        (if preload_enabled then "Tracking child processes via LD_PRELOAD...\n".toList
         else "Note: LD_PRELOAD library not found, tracking without preload\n".toList)
    ++ write_log g2 "==========================\n".toList
  let payload := io_open_payload settings user_info command_info pid
  { ret := 1
    globals := g2
    effects := warn ++ envs ++ logs ++ send_to_daemon env g2.g_daemon_sock payload }

/-! ## `syscall_interceptor.c` -/

/-- A word of memory read as a `char*`: NULL, the address of a string, or
anything else (`wild`), which is not the address of readable memory: printing it
with `%s` faults. -/
inductive Word where
  | null
  | str (s : CStr)
  | wild

/-- An argument vector as it lies in memory: the pointers `args`, the NULL that
ends the vector, and the words `after` that follow the NULL. The words after
the terminator are not part of the vector and can hold anything; a loop that
stops at the terminator never reads them. -/
structure Argv where
  args : List CStr
  after : Nat → Word

/-- The word `argv[i]`. -/
def Argv.get (v : Argv) (i : Nat) : Word :=
  match v.args.get? i with
  | some a => Word.str a
  | none => if i = v.args.length then Word.null else v.after (i - v.args.length - 1)

/-- The bytes in `char msg[4096]`. -/
def MSG_SIZE : Nat := 4096

/-- The conversion of an `int` to `size_t` (64 bits). -/
def to_size_t (x : Int) : Nat := (x % 2 ^ 64).toNat

/-- The result of an `int` addition, wrapped to 32 bits. -/
def wrap_int (x : Int) : Int := (x + 2 ^ 31) % 2 ^ 32 - 2 ^ 31

/-- The `size_t` value of `sizeof(msg) - offset`. -/
def size_left (offset : Int) : Nat := (MSG_SIZE + 2 ^ 64 - to_size_t offset) % 2 ^ 64

/-- The value `snprintf` returns for an output of `len` characters: the length,
or a negative value when the length does not fit an `int`. -/
def snprintf_ret (len : Nat) : Int := if len ≤ 2 ^ 31 - 1 then (len : Int) else -1

/-- The call `snprintf(buf + off, size, ...)` on the array `buf`, where `text`
is the whole output of the format: at most `size - 1` characters of it are
stored from `buf[off]` on, then a NUL. The result is the array afterwards and the
value returned; it is `none` when a byte would be stored outside the array. -/
def snprintf_at (buf : List Char) (off : Int) (size : Nat) (text : CStr) :
    Option (List Char × Int) :=
  if size = 0 then some (buf, snprintf_ret text.length)
  else
    let out := text.take (size - 1)
    if 0 ≤ off ∧ off.toNat + out.length + 1 ≤ buf.length then
      some (buf.take off.toNat ++ out ++ [NUL] ++ buf.drop (off.toNat + out.length + 1),
            snprintf_ret text.length)
    else none

/-- The C string held by an array: the bytes before the first NUL; `none` when
the array holds no NUL, where `strlen` runs off its end. -/
def c_str (buf : List Char) : Option CStr :=
  if NUL ∈ buf then some (buf.takeWhile (· ≠ NUL)) else none

/-- The output of the first format of `send_execve_to_daemon`; a null
`pathname` prints as the empty string. -/
def exec_header (pathname : Option CStr) (pid ppid : Int) : CStr :=
  "\x7b\"type\":\"execve\",\"pid\":".toList ++ fmt_d pid
    ++ ",\"ppid\":".toList ++ fmt_d ppid
    ++ ",\"program\":\"".toList ++ pathname.getD []
    ++ "\",\"args\":[".toList

/-- The loop over `argv[i]` of `send_execve_to_daemon`, from index `i` on, the
arguments from `argv[i]` to the terminating NULL being given as a list. Each
round is guarded by `offset < sizeof(msg) - 100`, stores a comma when `i > 0`,
then the quoted argument. The index `i` is counted in `Nat`, which is what the
`int` of the source does on a vector of fewer than `2^31` arguments. -/
def append_args : List CStr → Nat → List Char → Int → Option (List Char × Int)
  | [], _, msg, offset => some (msg, offset)
  | a :: rest, i, msg, offset =>
    if to_size_t offset < MSG_SIZE - 100 then
      (if i > 0 then
        (snprintf_at msg offset (size_left offset) [',']).map
          fun (w : List Char × Int) => (w.1, wrap_int (offset + w.2))
       else some (msg, offset)).bind fun s1 =>
      (snprintf_at s1.1 s1.2 (size_left s1.2) ('\"' :: a ++ ['\"'])).bind fun w =>
      append_args rest (i + 1) w.1 (wrap_int (s1.2 + w.2))
    else some (msg, offset)

/-- Lines 40 to 45: the loop runs when `argv` is not null and
`offset < sizeof(msg)`. -/
def append_argv (argv : Option Argv) (msg : List Char) (offset : Int) :
    Option (List Char × Int) :=
  match argv with
  | some v =>
    if to_size_t offset < MSG_SIZE then append_args v.args 0 msg offset else some (msg, offset)
  | none => some (msg, offset)

/-- Lines 47 to 49: the closing `]}` is stored when `offset < sizeof(msg)`. -/
def append_close (msg : List Char) (offset : Int) : Option (List Char × Int) :=
  if to_size_t offset < MSG_SIZE then
    (snprintf_at msg offset (size_left offset) [']', '\x7d']).map
      fun (w : List Char × Int) => (w.1, wrap_int (offset + w.2))
  else some (msg, offset)

/-- Lines 30 to 51 of `send_execve_to_daemon`: the array `msg`, which starts
with whatever `garbage` the stack holds, is filled by `snprintf` and the
message handed to `sendto` is its `strlen(msg)` first bytes. The result is `none`
when a byte is stored or read outside `msg`. -/
def build_exec_msg (garbage : Nat → Char) (pathname : Option CStr) (argv : Option Argv)
    (pid ppid : Int) : Option CStr :=
  (snprintf_at ((List.range MSG_SIZE).map garbage) 0 MSG_SIZE
      (exec_header pathname pid ppid)).bind fun h =>
  (append_argv argv h.1 h.2).bind fun s =>
  (append_close s.1 s.2).bind fun e =>
  c_str e.1

/-- Where the readable log line goes. -/
inductive LogTarget where
  | stdout
  | file (path : CStr)

/-- What the interceptor does to the outside world. -/
inductive Event where
  /-- Text printed on the standard error stream. -/
  | stderr (text : CStr)
  /-- A call of `sendto` with the address path and the message. -/
  | sendto (path msg : CStr) (delivered : Bool)
  /-- Text written to the log target. -/
  | logWrite (target : LogTarget) (text : CStr)
  /-- A call of the genuine `execve`. -/
  | realExecve (pathname : Option CStr) (argv : Option Argv) (envp : Option (List CStr))

/-- Whether an event is a call of the genuine primitive. -/
def Event.isRealExecve : Event → Bool
  | Event.realExecve _ _ _ => true
  | _ => false

/-- The outcomes of the library and system calls the interceptor makes. -/
structure ExecEnv where
  /-- The answer of `dlsym(RTLD_NEXT, "execve")`: the genuine primitive, whose
  result is `none` when it does not return (the image is replaced). -/
  real_execve : Option (Option CStr → Option Argv → Option (List CStr) → Option Int)
  /-- The text of `dlerror()`. -/
  dlerror : CStr
  pid : Int
  ppid : Int
  /-- The variable `environ`. -/
  environ : Option (List CStr)
  /-- The value of `getenv("SUDO_DAEMON_SOCK")`. -/
  sock_env : Option CStr
  socket_ok : Bool
  sendto_ok : Bool
  /-- The bytes found in `msg` before it is written. -/
  garbage : Nat → Char
  /-- The value of `getenv("SUDO_LOG_FILE")`. -/
  log_env : Option CStr
  fopen_ok : Bool
  /-- The output of `strftime` for the current time. -/
  timestamp : CStr
  /-- The answer of `getcwd`. -/
  cwd : Option CStr
  /-- The value of `getuid()`. -/
  uid : Nat

/-- `send_execve_to_daemon`: nothing when no socket can be made, otherwise the
message is built and sent once. `none` when building it goes outside `msg`. -/
def send_execve_to_daemon (env : ExecEnv) (pathname : Option CStr) (argv : Option Argv)
    (pid ppid : Int) : Option (List Event) :=
  let sock_path := env.sock_env.getD "/run/sudo-process-recorder.sock".toList
  if !env.socket_ok then some []
  else
    (build_exec_msg env.garbage pathname argv pid ppid).map fun m =>
      [Event.sendto (sock_path.take 107) m env.sendto_ok]

/-- The loop `for (int i = 1; argv[i] != NULL && i < 10; i++)` of
`log_execve_to_file`, from index `i` on; `fuel` bounds the rounds. Each round
reads the word `argv[i]`, leaves on NULL or on `i >= 10`, and otherwise prints
the word with `%s`. The result is the text printed, or `none` when a word that
is not the address of a string is printed. -/
def log_args_loop (v : Argv) : Nat → Nat → Option CStr
  | 0, _ => some []
  | fuel + 1, i =>
    match v.get i with
    | Word.null => some []
    | Word.str a =>
      if i < 10 then
        (log_args_loop v fuel (i + 1)).map fun t => (if i > 1 then [' '] else []) ++ a ++ t
      else some []
    | Word.wild => if i < 10 then none else some []

/-- What `log_execve_to_file` prints between the program path and the newline:
nothing for a null `argv` or a null `argv[1]`, else a space and the loop from
index 1. Ten rounds of fuel are more than the loop can use. `argv[0]` is not
looked at. `none` when the loop faults. -/
def log_args (argv : Option Argv) : Option CStr :=
  match argv with
  | none => some []
  | some v =>
    match v.get 1 with
    | Word.null => some []
    | _ => (log_args_loop v 10 1).map fun t => ' ' :: t

/-- The line `log_execve_to_file` prints; `none` when printing it faults. -/
def exec_log_line (timestamp : CStr) (pid ppid : Int) (user cwd : CStr)
    (pathname : Option CStr) (argv : Option Argv) : Option CStr :=
  (log_args argv).map fun args =>
    "[".toList ++ timestamp ++ "] Sub-process ".toList ++ fmt_d pid
      ++ " (ppid=".toList ++ fmt_d ppid ++ ", user=".toList ++ user
      ++ ", cwd=".toList ++ cwd ++ "): ".toList ++ pathname.getD "(null)".toList
      ++ args ++ "\n".toList

/-- `log_execve_to_file`: nothing without a log target (variable unset or
empty, file not opened), otherwise one line. `none` when the process faults
while it prints the line. -/
def log_execve_to_file (env : ExecEnv) (pathname : Option CStr) (argv : Option Argv)
    (pid ppid : Int) : Option (List Event) :=
  match env.log_env with
  | none => some []
  | some log_file =>
    if log_file = [] then some []
    else
      let output : Option LogTarget :=
        if log_file = "stdout".toList then some LogTarget.stdout
        else if env.fopen_ok then some (LogTarget.file log_file) else none
      match output with
      | none => some []
      | some t =>
        let cwd := env.cwd.getD "unknown".toList
        let user := (fmt_d (wrap_int env.uid)).take 255
        (exec_log_line env.timestamp pid ppid user cwd pathname argv).map fun line =>
          [Event.logWrite t line]

/-- What a call of the wrapper amounts to: the value handed back to the caller
(`none` when the call does not return) and the events in the order they
happen. -/
structure ExecOutcome where
  ret : Option Int
  trace : List Event

/-- The wrapper `execve`. The result is `none` when the process faults in the
telemetry (a store outside the array `msg`, a word that is not the address of a
string printed with `%s`): the genuine primitive is then never reached. -/
def execve (env : ExecEnv) (pathname : Option CStr) (argv : Option Argv)
    (envp : Option (List CStr)) : Option ExecOutcome :=
  match env.real_execve with
  | none =>
    some { ret := some (-1)
           trace := [Event.stderr ("Error: Unable to find real execve: ".toList
                      ++ env.dlerror ++ "\n".toList)] }
  | some real =>
    (send_execve_to_daemon env pathname argv env.pid env.ppid).bind fun sent =>
    (log_execve_to_file env pathname argv env.pid env.ppid).map fun logged =>
      { ret := real pathname argv envp
        trace := sent ++ logged ++ [Event.realExecve pathname argv envp] }

/-- The wrapper `execv`. -/
def execv (env : ExecEnv) (pathname : Option CStr) (argv : Option Argv) : Option ExecOutcome :=
  execve env pathname argv env.environ

/-! ## `sudo_daemon_collector.cpp` -/

/-- One round of the receive loop as the outside world decides it: the datagram
that arrives (`none` when `recv` fails) and whether the sink opens. -/
structure Recv where
  datagram : Option (List Char)
  open_ok : Bool
deriving DecidableEq, Repr

/-- The bytes in `char buf[65536]`. -/
def BUF_SIZE : Nat := 65536

/-- The call `recv(fd, buf, sizeof(buf) - 1, 0)`: the value returned and the
bytes stored at the start of `buf`. A datagram longer than the room given is cut
to it. -/
def recv (r : Recv) : Int × List Char :=
  match r.datagram with
  | none => (-1, [])
  | some d => (((d.take (BUF_SIZE - 1)).length : Nat), d.take (BUF_SIZE - 1))

/-- One round of the loop of `main`: a result `n <= 0` leaves the sink as it
is; otherwise `buf[n]` is set to NUL and the C string in `buf`, then a newline,
are appended to the sink if it opens. -/
def collector_step (sink : List Char) (r : Recv) : List Char :=
  let n := (recv r).1
  if n ≤ 0 then sink
  else
    let buf := (recv r).2 ++ [NUL]
    if r.open_ok then sink ++ buf.takeWhile (· ≠ NUL) ++ ['\n'] else sink

/-- The loop of `main` run over the rounds `rs`. -/
def collector_loop (sink : List Char) (rs : List Recv) : List Char :=
  rs.foldl collector_step sink

/-! ## Notions of the specification -/

/-- The unescaping the specification calls standard: the pairs `\\`, `\"`,
`\n`, `\r`, `\t` become backslash, quote, newline, carriage return and tab; every
other character is left as it is. -/
def json_unescape : List Char → List Char
  | [] => []
  | [c] => [c]
  | c :: d :: rest =>
    if c = '\\' then
      if d = '\\' then '\\' :: json_unescape rest
      else if d = '\"' then '\"' :: json_unescape rest
      else if d = 'n' then '\n' :: json_unescape rest
      else if d = 'r' then '\r' :: json_unescape rest
      else if d = 't' then '\t' :: json_unescape rest
      else c :: json_unescape (d :: rest)
    else c :: json_unescape (d :: rest)

/-- The Session record of the specification, as text: one `basic_info` object
holding the eight fields in the documented order, each with the text given for
its value (the two quotes around a string value are part of the record). -/
def session_record (user pid ppid pgid runas_user runas_uid runas_gid command : CStr) : CStr :=
  "\x7b\"basic_info\":\x7b\"user\":\"".toList ++ user
    ++ "\",\"pid\":".toList ++ pid
    ++ ",\"ppid\":".toList ++ ppid
    ++ ",\"pgid\":".toList ++ pgid
    ++ ",\"runas_user\":\"".toList ++ runas_user
    ++ "\",\"runas_uid\":".toList ++ runas_uid
    ++ ",\"runas_gid\":".toList ++ runas_gid
    ++ ",\"command\":\"".toList ++ command
    ++ "\"\x7d\x7d".toList

/-- The value a `key=value` list gives to a key, in the words of the
specification: the value of the first entry that reads `key=...`, and nothing
(`none`) for a null list or a list that lacks the key. -/
def kv_lookup (list : Option (List CStr)) (key : CStr) : Option CStr :=
  match list with
  | none => none
  | some l =>
    (l.find? fun e => (key ++ ['=']).isPrefixOf e).map fun e => e.drop (key.length + 1)

/-- How the specification serializes a string field: the empty string when the
key is missing, the (escaped) value when it is present. -/
def str_field_spec (v : Option CStr) : CStr :=
  match v with
  | none => []
  | some s => json_escape s

/-- How the specification serializes a numeric field: the literal `null` when
the key is missing, the value when it is present. -/
def num_field_spec (v : Option CStr) : CStr :=
  match v with
  | none => "null".toList
  | some s => s

/-- How the code serializes a numeric field: the literal `null` when the key is
missing and when its value is empty, the value otherwise. -/
def num_field_code (v : Option CStr) : CStr :=
  match v with
  | none => "null".toList
  | some s => if s = [] then "null".toList else s

/-- An integer in the number syntax of JSON: an optional minus sign, then
either the single digit `0` or a digit from 1 to 9 followed by digits. -/
def is_json_int (s : CStr) : Bool :=
  let digits := match s with
    | '-' :: r => r
    | r => r
  match digits with
  | [] => false
  | d :: r => d.isDigit && r.all Char.isDigit && (d != '0' || r.isEmpty)

/-- A numeric field of the documented record shape: a number or the literal
`null`. -/
def is_number_or_null (s : CStr) : Bool :=
  is_json_int s || s == "null".toList

/-- A control character: a byte below 0x20. -/
def is_control (c : Char) : Bool := c.toNat < 0x20

/-- The Session record made from the three metadata lists and the pid, the
numeric fields being serialized by `num`: the string fields are looked up and
serialized as the specification says, the pid is printed in decimal. -/
def session_record_of (num : Option CStr → CStr)
    (settings user_info command_info : Option (List CStr)) (pid : Int) : CStr :=
  session_record (str_field_spec (kv_lookup user_info "user".toList)) (fmt_d pid)
    (num (kv_lookup user_info "ppid".toList)) (num (kv_lookup user_info "pgid".toList))
    (str_field_spec (kv_lookup settings "runas_user".toList))
    (num (kv_lookup settings "runas_uid".toList)) (num (kv_lookup settings "runas_gid".toList))
    (str_field_spec (kv_lookup command_info "command".toList))

/-- A metadata value that is missing, empty, or an integer in JSON syntax. -/
def numeric_or_absent (v : Option CStr) : Bool :=
  match v with
  | none => true
  | some s => s.isEmpty || is_json_int s

/-- The values of an `int`. -/
def in_int_range (x : Int) : Prop := -(2 ^ 31) ≤ x ∧ x < 2 ^ 31

/-- The state of the array `msg` between two calls of `snprintf`: it has its
4096 bytes and one of them is a NUL. -/
def msg_ok (buf : List Char) : Prop := buf.length = MSG_SIZE ∧ NUL ∈ buf

/-- The datagrams the Collector receives with a result `n > 0`, in receipt
order: those of the rounds where `recv` succeeds with at least one byte. -/
def received (rs : List Recv) : List (List Char) :=
  rs.filterMap fun r =>
    match r.datagram with
    | some d => if d = [] then none else some d
    | none => none

/-- A round the Collector handles to the letter: either `recv` fails, or the
datagram that arrives holds no NUL byte and at most 65535 bytes (the room
given to `recv`) and the sink opens. -/
def Recv.plain (r : Recv) : Bool :=
  match r.datagram with
  | some d => r.open_ok && !d.contains NUL && decide (d.length ≤ BUF_SIZE - 1)
  | none => true

/-- Strings put one after the other with a single space between two
neighbours. -/
def spaced : List CStr → CStr
  | [] => []
  | [a] => a
  | a :: b :: t => a ++ ' ' :: spaced (b :: t)

/-- What the specification has the readable line list after the program path:
the arguments `argv[1]` to `argv[min(N-1, 9)]` of the vector, single spaces
between them (and one space before the first, to part it from the path);
nothing when there is no such argument. -/
def log_args_spec (argv : Option Argv) : CStr :=
  match argv with
  | none => []
  | some v =>
    match (v.args.drop 1).take 9 with
    | [] => []
    | a :: l => ' ' :: spaced (a :: l)

/-- A null `argv`, or a vector that has its `argv[0]`. -/
def has_argv0 (argv : Option Argv) : Bool :=
  match argv with
  | none => true
  | some v => !v.args.isEmpty

/-! # Theorems -/

/-! ## `json_escape` -/

/-- A character other than the backslash passes `json_unescape` as it is. -/
theorem json_unescape_cons_of_ne (c : Char) (t : List Char) (h : c ≠ '\\') :
    json_unescape (c :: t) = c :: json_unescape t := by
  cases t with
  | nil => simp [json_unescape]
  | cons d rest => simp [json_unescape, h]

/-- Unescaping undoes the escape of one character, whatever follows it. -/
theorem json_unescape_escape_char (c : Char) (t : List Char) :
    json_unescape (json_escape_char c ++ t) = c :: json_unescape t := by
  unfold json_escape_char
  by_cases h1 : c = '\\'
  · subst h1; simp [json_unescape]
  by_cases h2 : c = '\"'
  · subst h2; simp [json_unescape]
  by_cases h3 : c = '\n'
  · subst h3; simp [json_unescape]
  by_cases h4 : c = '\r'
  · subst h4; simp [json_unescape]
  by_cases h5 : c = '\t'
  · subst h5; simp [json_unescape]
  simp only [h1, h2, h3, h4, h5, if_false]
  exact json_unescape_cons_of_ne c t h1

/-- Unescaping undoes `json_escape`. -/
theorem json_unescape_escape (s : CStr) : json_unescape (json_escape s) = s := by
  induction s with
  | nil => simp [json_escape, json_unescape]
  | cons c cs ih => simp [json_escape, json_unescape_escape_char, ih]

/-- C4. Round trip of `json_escape`: unescaping the escaped text of any string
gives the string back, and therefore `json_escape` is injective. -/
theorem json_escape_round_trip :
    (∀ s : CStr, json_unescape (json_escape s) = s) ∧ Function.Injective json_escape := by
  refine ⟨json_unescape_escape, ?_⟩
  intro a b hab
  have h := congrArg json_unescape hab
  rwa [json_unescape_escape, json_unescape_escape] at h

/-- C9, at the failing input: the bell character (byte 7), a control character,
leaves `json_escape` raw, so the escaped text of `ls` followed by it still holds
a byte below 0x20. -/
theorem json_escape_keeps_control_char :
    json_escape ['l', 's', Char.ofNat 7] = ['l', 's', Char.ofNat 7]
      ∧ is_control (Char.ofNat 7) = true
      ∧ (json_escape ['l', 's', Char.ofNat 7]).any is_control = true := by
  decide

/-! ## `io_open` -/

/-- C2. `io_open` hands 1 back to the host whatever the process-wide variables
hold, whatever lists it is given (null ones included) and whatever the outcome
of opening the log file, of looking for the interception library, of making the
socket and of sending. -/
theorem io_open_reports_success (g0 : Globals) (env : OpenEnv) (plugin_printf : Bool)
    (settings user_info command_info plugin_options : Option (List CStr)) :
    (io_open g0 env plugin_printf settings user_info command_info plugin_options).ret = 1 := by
  rfl

/-- A run of `io_open` in which everything degrades: the log file named by
the options does not open, the interception library is not there and the send
fails. The host gets the warning and the four readable lines through its own
callback, nothing is put in the environment, and the payload is handed to
`sendto` all the same. -/
theorem io_open_degraded_example :
    (io_open Globals.init
        { fopen_ok := false, file_exists := fun _ => false, pid := 4321,
          socket_ok := true, sendto_ok := false }
        true none (some ["user=alice".toList]) (some ["command=/bin/ls".toList])
        (some ["log_file=/tmp/l".toList])).effects
      = [Effect.hostPrintf true "Warning: Failed to open log file /tmp/l\n".toList,
         Effect.hostPrintf false "\n=== Basic Process Info ===\n".toList,
         Effect.hostPrintf false "User: alice | Command: /bin/ls | PID: 4321 | PPID: \n".toList,
         Effect.hostPrintf false
           "Note: LD_PRELOAD library not found, tracking without preload\n".toList,
         Effect.hostPrintf false "==========================\n".toList,
         Effect.sendto "/run/sudo-process-recorder.sock".toList
           ("\x7b\"basic_info\":\x7b\"user\":\"alice\",\"pid\":4321,\"ppid\":null,\"pgid\":null,"
             ++ "\"runas_user\":\"\",\"runas_uid\":null,\"runas_gid\":null,"
             ++ "\"command\":\"/bin/ls\"\x7d\x7d").toList false] := by
  decide

/-! ## The Session payload -/

/-- The test of `find_kv` on an entry (`strncmp` on the key, then `=`) holds
exactly when the entry starts with `key=`. -/
theorem find_kv_match_iff (key e : CStr) :
    (e.take key.length = key ∧ e.get? key.length = some '=')
      ↔ (key ++ ['=']).isPrefixOf e = true := by
  induction key generalizing e with
  | nil =>
    cases e with
    | nil => simp [List.isPrefixOf]
    | cons c r =>
      simp only [List.nil_append, List.isPrefixOf, List.length_nil, List.take_zero,
        List.get?_cons_zero, true_and, Bool.and_true, beq_iff_eq, Option.some.injEq]
      exact eq_comm
  | cons k ks ih =>
    cases e with
    | nil => simp [List.isPrefixOf]
    | cons c r =>
      have h := ih r
      simp only [List.length_cons, List.take_succ_cons, List.cons.injEq, List.get?_cons_succ,
        List.cons_append, List.isPrefixOf, Bool.and_eq_true, beq_iff_eq, List.append_eq]
      rw [← h]
      constructor
      · rintro ⟨⟨h1, h2⟩, h3⟩; exact ⟨h1.symm, h2, h3⟩
      · rintro ⟨h1, h2, h3⟩; exact ⟨⟨h1.symm, h2⟩, h3⟩

/-- `find_kv` returns the value the list gives to the key, and the empty string
when it gives none. -/
theorem find_kv_eq_lookup (list : Option (List CStr)) (key : CStr) :
    find_kv list key = (kv_lookup list key).getD [] := by
  cases list with
  | none => rfl
  | some l =>
    simp only [find_kv, kv_lookup]
    induction l with
    | nil => rfl
    | cons e rest ih =>
      by_cases h : (key ++ ['=']).isPrefixOf e = true
      · have h2 := (find_kv_match_iff key e).mpr h
        simp only [find_kv_loop, if_pos h2, List.find?, h, Option.map_some', Option.getD_some]
      · have h2 : ¬ (e.take key.length = key ∧ e.get? key.length = some '=') :=
          fun hh => h ((find_kv_match_iff key e).mp hh)
        simp only [find_kv_loop, h2, if_false, ih]
        simp [List.find?, h]

/-- The numeric field the code streams, in terms of the looked-up value. -/
theorem num_field_find_kv (list : Option (List CStr)) (key : CStr) :
    num_field (find_kv list key) = num_field_code (kv_lookup list key) := by
  rw [find_kv_eq_lookup]
  cases h : kv_lookup list key with
  | none => rfl
  | some v => simp [num_field, num_field_code]

/-- The string field the code streams, in terms of the looked-up value. -/
theorem json_escape_find_kv (list : Option (List CStr)) (key : CStr) :
    json_escape (find_kv list key) = str_field_spec (kv_lookup list key) := by
  rw [find_kv_eq_lookup]
  cases h : kv_lookup list key with
  | none => rfl
  | some v => rfl

/-- The text streamed by `io_open` is a Session record. -/
theorem session_payload_eq_record (user : CStr) (pid : Int)
    (ppid pgid runas_user runas_uid runas_gid command : CStr) :
    session_payload user pid ppid pgid runas_user runas_uid runas_gid command
      = session_record (json_escape user) (fmt_d pid) (num_field ppid) (num_field pgid)
          (json_escape runas_user) (num_field runas_uid) (num_field runas_gid)
          (json_escape command) := by
  simp [session_payload, session_record, List.append_assoc]

/-- The payload is the Session record of the looked-up values, for any reading
`num` of the numeric fields that agrees with the code. -/
theorem io_open_payload_eq (num : Option CStr → CStr)
    (settings user_info command_info : Option (List CStr)) (pid : Int)
    (hnum : ∀ (l : Option (List CStr)) (key : CStr),
      num_field (find_kv l key) = num (kv_lookup l key)) :
    io_open_payload settings user_info command_info pid
      = session_record_of num settings user_info command_info pid := by
  simp only [io_open_payload, session_record_of, session_payload_eq_record, hnum,
    json_escape_find_kv]

/-- C3, the claim as stated fails: with `ppid=` present and its value empty,
the payload carries `null` for `ppid`, not the (empty) value of the key. -/
theorem io_open_payload_empty_value :
    io_open_payload none (some ["ppid=".toList]) none 1
        ≠ session_record_of num_field_spec none (some ["ppid=".toList]) none 1
      ∧ io_open_payload none (some ["ppid=".toList]) none 1
        = ("\x7b\"basic_info\":\x7b\"user\":\"\",\"pid\":1,\"ppid\":null,\"pgid\":null,"
            ++ "\"runas_user\":\"\",\"runas_uid\":null,\"runas_gid\":null,"
            ++ "\"command\":\"\"\x7d\x7d").toList := by
  decide

/-- C3, amended. For all lists (null ones and ones that lack keys included) the
payload is one `basic_info` object with the eight fields `user`, `pid`, `ppid`,
`pgid`, `runas_user`, `runas_uid`, `runas_gid`, `command` in that order; a
missing string key gives `""`, a present one its escaped value; a numeric key
that is missing, or present with an empty value, gives `null`, and a numeric key
with a non-empty value gives that value. -/
theorem io_open_payload_fields (settings user_info command_info : Option (List CStr))
    (pid : Int) :
    io_open_payload settings user_info command_info pid
      = session_record_of num_field_code settings user_info command_info pid :=
  io_open_payload_eq num_field_code settings user_info command_info pid num_field_find_kv

/-- The example of the specification: user `alice`, pid 4321, no `ppid`,
`pgid=9`, run-as `root`/0/0 and the command `/bin/ls -la`. -/
theorem io_open_payload_example :
    io_open_payload
        (some ["runas_user=root".toList, "runas_uid=0".toList, "runas_gid=0".toList])
        (some ["user=alice".toList, "pgid=9".toList])
        (some ["command=/bin/ls -la".toList]) 4321
      = ("\x7b\"basic_info\":\x7b\"user\":\"alice\",\"pid\":4321,\"ppid\":null,\"pgid\":9,"
          ++ "\"runas_user\":\"root\",\"runas_uid\":0,\"runas_gid\":0,"
          ++ "\"command\":\"/bin/ls -la\"\x7d\x7d").toList := by
  decide

/-- A value that is missing, empty or an integer is streamed as a number or as
`null`. -/
theorem num_field_code_number_or_null (v : Option CStr) (h : numeric_or_absent v = true) :
    is_number_or_null (num_field_code v) = true := by
  cases v with
  | none => decide
  | some s =>
    by_cases hs : s = []
    · subst hs; decide
    · have hs2 : s.isEmpty = false := by
        cases s with
        | nil => exact absurd rfl hs
        | cons a t => rfl
      simp only [numeric_or_absent, hs2, Bool.false_or] at h
      simp [num_field_code, hs, is_number_or_null, h]

/-- C8, the claim as stated fails: the value of `ppid=abc` reaches the payload
as it is, and `abc` is neither a number nor `null`. -/
theorem io_open_payload_non_numeric :
    is_number_or_null (num_field (find_kv (some ["ppid=abc".toList]) "ppid".toList)) = false
      ∧ io_open_payload none (some ["ppid=abc".toList]) none 1
        = ("\x7b\"basic_info\":\x7b\"user\":\"\",\"pid\":1,\"ppid\":abc,\"pgid\":null,"
            ++ "\"runas_user\":\"\",\"runas_uid\":null,\"runas_gid\":null,"
            ++ "\"command\":\"\"\x7d\x7d").toList := by
  decide

/-- C8, amended. When each of `ppid`, `pgid` (in `user_info`) and `runas_uid`,
`runas_gid` (in `settings`) is missing, empty, or an integer in JSON syntax, the
payload is a Session record whose four numeric fields are each a number or
`null`. -/
theorem io_open_payload_numeric_fields
    (settings user_info command_info : Option (List CStr)) (pid : Int)
    (h1 : numeric_or_absent (kv_lookup user_info "ppid".toList) = true)
    (h2 : numeric_or_absent (kv_lookup user_info "pgid".toList) = true)
    (h3 : numeric_or_absent (kv_lookup settings "runas_uid".toList) = true)
    (h4 : numeric_or_absent (kv_lookup settings "runas_gid".toList) = true) :
    ∃ ppid pgid runas_uid runas_gid : CStr,
      is_number_or_null ppid = true ∧ is_number_or_null pgid = true
        ∧ is_number_or_null runas_uid = true ∧ is_number_or_null runas_gid = true
        ∧ io_open_payload settings user_info command_info pid
          = session_record (str_field_spec (kv_lookup user_info "user".toList)) (fmt_d pid)
              ppid pgid (str_field_spec (kv_lookup settings "runas_user".toList))
              runas_uid runas_gid (str_field_spec (kv_lookup command_info "command".toList)) :=
  ⟨_, _, _, _, num_field_code_number_or_null _ h1, num_field_code_number_or_null _ h2,
    num_field_code_number_or_null _ h3, num_field_code_number_or_null _ h4,
    io_open_payload_eq num_field_code settings user_info command_info pid num_field_find_kv⟩

/-- C8, amended, at `ppid=12`, `runas_uid=0`, the other two keys missing. -/
theorem io_open_payload_numeric_fields_witness :
    ∃ ppid pgid runas_uid runas_gid : CStr,
      is_number_or_null ppid = true ∧ is_number_or_null pgid = true
        ∧ is_number_or_null runas_uid = true ∧ is_number_or_null runas_gid = true
        ∧ io_open_payload (some ["runas_uid=0".toList]) (some ["ppid=12".toList]) none 7
          = session_record
              (str_field_spec (kv_lookup (some ["ppid=12".toList]) "user".toList)) (fmt_d 7)
              ppid pgid
              (str_field_spec (kv_lookup (some ["runas_uid=0".toList]) "runas_user".toList))
              runas_uid runas_gid (str_field_spec (kv_lookup none "command".toList)) :=
  io_open_payload_numeric_fields (some ["runas_uid=0".toList]) (some ["ppid=12".toList]) none 7
    (by decide) (by decide) (by decide) (by decide)

/-! ## `send_execve_to_daemon` -/

/-- A wrapped sum is an `int`. -/
theorem wrap_int_in_range (x : Int) : in_int_range (wrap_int x) := by
  unfold in_int_range wrap_int
  constructor <;> omega

/-- Wrapping leaves an `int` as it is. -/
theorem wrap_int_of_in_range (x : Int) (h : in_int_range x) : wrap_int x = x := by
  unfold in_int_range at h
  unfold wrap_int
  omega

/-- The value returned by `snprintf` is an `int`. -/
theorem snprintf_ret_in_range (n : Nat) : in_int_range (snprintf_ret n) := by
  unfold in_int_range snprintf_ret
  split <;> omega

/-- An `int` that compares below a bound of at most 4096 after its conversion to
`size_t` is non-negative and below the bound: a negative `int` converts to a
huge value. -/
theorem to_size_t_lt (x : Int) (b : Nat) (hx : in_int_range x) (hb : b ≤ MSG_SIZE)
    (h : to_size_t x < b) : 0 ≤ x ∧ x < b := by
  unfold in_int_range at hx
  unfold to_size_t at h
  unfold MSG_SIZE at hb
  omega

/-- For an offset inside the array, `sizeof(msg) - offset` does not wrap. -/
theorem size_left_eq (x : Int) (h0 : 0 ≤ x) (h1 : x < MSG_SIZE) :
    size_left x = MSG_SIZE - x.toNat := by
  unfold size_left to_size_t
  unfold MSG_SIZE at *
  omega

/-- A call `snprintf(msg + offset, sizeof(msg) - offset, ...)` with the offset inside
the array stores inside the array and leaves a NUL in it, whatever the length
of the text. -/
theorem snprintf_at_ok (buf : List Char) (off : Int) (text : CStr)
    (hlen : buf.length = MSG_SIZE) (h0 : 0 ≤ off) (h1 : off < MSG_SIZE) :
    ∃ buf2, snprintf_at buf off (size_left off) text = some (buf2, snprintf_ret text.length)
      ∧ msg_ok buf2 := by
  rw [size_left_eq off h0 h1]
  have hoff : off.toNat < MSG_SIZE := by omega
  have hsz : MSG_SIZE - off.toNat ≠ 0 := by omega
  have hout : (text.take (MSG_SIZE - off.toNat - 1)).length ≤ MSG_SIZE - off.toNat - 1 := by
    rw [List.length_take]; exact Nat.min_le_left _ _
  have hin : 0 ≤ off ∧ off.toNat + (text.take (MSG_SIZE - off.toNat - 1)).length + 1
      ≤ buf.length := by
    refine ⟨h0, ?_⟩
    rw [hlen]; omega
  refine ⟨buf.take off.toNat ++ text.take (MSG_SIZE - off.toNat - 1) ++ [NUL]
      ++ buf.drop (off.toNat + (text.take (MSG_SIZE - off.toNat - 1)).length + 1), ?_, ?_, ?_⟩
  · simp only [snprintf_at, hsz, if_false, hin, and_self, if_true]
  · simp only [List.length_append, List.length_take, List.length_drop, List.length_singleton,
      hlen] at hout ⊢
    omega
  · simp


/-- The argument loop never stores outside `msg`, and leaves `msg` terminated and
the offset an `int`. -/
theorem append_args_ok (args : List CStr) :
    ∀ (i : Nat) (msg : List Char) (offset : Int), msg_ok msg → in_int_range offset →
      ∃ msg2 offset2, append_args args i msg offset = some (msg2, offset2)
        ∧ msg_ok msg2 ∧ in_int_range offset2 := by
  induction args with
  | nil => intro i msg offset hm ho; exact ⟨msg, offset, rfl, hm, ho⟩
  | cons a rest ih =>
    intro i msg offset hm ho
    by_cases hg : to_size_t offset < MSG_SIZE - 100
    · have hb := to_size_t_lt offset (MSG_SIZE - 100) ho (Nat.sub_le _ _) hg
      -- the comma
      have hcomma : ∃ m1 o1,
          (if i > 0 then
            (snprintf_at msg offset (size_left offset) [',']).map
              fun (w : List Char × Int) => (w.1, wrap_int (offset + w.2))
           else some (msg, offset)) = some (m1, o1)
            ∧ msg_ok m1 ∧ 0 ≤ o1 ∧ o1 < MSG_SIZE := by
        by_cases hi : i > 0
        · obtain ⟨m1, hm1, hok1⟩ := snprintf_at_ok msg offset [','] hm.1 hb.1
            (by unfold MSG_SIZE at *; omega)
          refine ⟨m1, wrap_int (offset + snprintf_ret 1), ?_, hok1, ?_⟩
          · simp only [hi, if_true, hm1, Option.map_some', List.length_singleton]
          · have h1 : snprintf_ret 1 = 1 := by decide
            rw [h1, wrap_int_of_in_range]
            · unfold MSG_SIZE at *; omega
            · unfold in_int_range; unfold MSG_SIZE at *; omega
        · refine ⟨msg, offset, ?_, hm, hb.1, ?_⟩
          · simp only [hi, if_false]
          · unfold MSG_SIZE at *; omega
      obtain ⟨m1, o1, hc, hok1, ho1a, ho1b⟩ := hcomma
      obtain ⟨m2, hm2, hok2⟩ := snprintf_at_ok m1 o1 ('\"' :: a ++ ['\"']) hok1.1 ho1a ho1b
      obtain ⟨m3, o3, h3, hok3, ho3⟩ := ih (i + 1) m2
        (wrap_int (o1 + snprintf_ret ('\"' :: a ++ ['\"']).length)) hok2 (wrap_int_in_range _)
      refine ⟨m3, o3, ?_, hok3, ho3⟩
      rw [append_args]
      simp only [hg, if_true, hc, Option.some_bind, hm2]
      exact h3
    · refine ⟨msg, offset, ?_, hm, ho⟩
      rw [append_args]
      simp only [hg, if_false]

/-- The C string of an array that holds a NUL is shorter than the array. -/
theorem length_takeWhile_lt (buf : List Char) (h : NUL ∈ buf) :
    (buf.takeWhile (· ≠ NUL)).length < buf.length := by
  induction buf with
  | nil => simp at h
  | cons c t ih =>
    by_cases hc : c = NUL
    · simp [List.takeWhile, hc]
    · have ht : NUL ∈ t := by
        rcases List.mem_cons.mp h with h1 | h1
        · exact absurd h1.symm hc
        · exact h1
      have := ih ht
      simp only [List.takeWhile, ne_eq, hc, not_false_eq_true, decide_True, List.length_cons]
      simp only [ne_eq] at this
      omega

/-- Lines 40 to 45 never store outside `msg`. -/
theorem append_argv_ok (argv : Option Argv) (msg : List Char) (offset : Int)
    (hm : msg_ok msg) (ho : in_int_range offset) :
    ∃ msg2 offset2, append_argv argv msg offset = some (msg2, offset2)
      ∧ msg_ok msg2 ∧ in_int_range offset2 := by
  cases argv with
  | none => exact ⟨msg, offset, rfl, hm, ho⟩
  | some v =>
    by_cases hg : to_size_t offset < MSG_SIZE
    · obtain ⟨m2, o2, h2, hok2, ho2⟩ := append_args_ok v.args 0 msg offset hm ho
      exact ⟨m2, o2, by simp only [append_argv, hg, if_true, h2], hok2, ho2⟩
    · exact ⟨msg, offset, by simp only [append_argv, hg, if_false], hm, ho⟩

/-- Lines 47 to 49 never store outside `msg`. -/
theorem append_close_ok (msg : List Char) (offset : Int)
    (hm : msg_ok msg) (ho : in_int_range offset) :
    ∃ msg2 offset2, append_close msg offset = some (msg2, offset2) ∧ msg_ok msg2 := by
  by_cases hg : to_size_t offset < MSG_SIZE
  · have hb := to_size_t_lt offset MSG_SIZE ho (le_refl _) hg
    obtain ⟨m3, hm3, hok3⟩ := snprintf_at_ok msg offset [']', '\x7d'] hm.1 hb.1 hb.2
    exact ⟨m3, wrap_int (offset + snprintf_ret [']', '\x7d'].length),
      by simp only [append_close, hg, if_true, hm3, Option.map_some'], hok3⟩
  · exact ⟨msg, offset, by simp only [append_close, hg, if_false], hm⟩

/-- Building the message never leaves `msg`, and the message is shorter than
`msg`. -/
theorem build_exec_msg_ok (garbage : Nat → Char) (pathname : Option CStr)
    (argv : Option Argv) (pid ppid : Int) :
    ∃ m, build_exec_msg garbage pathname argv pid ppid = some m ∧ m.length < MSG_SIZE := by
  have hlen0 : ((List.range MSG_SIZE).map garbage).length = MSG_SIZE := by simp
  have hsz : size_left 0 = MSG_SIZE := by decide
  obtain ⟨m1, hm1, hok1⟩ := snprintf_at_ok ((List.range MSG_SIZE).map garbage) 0
    (exec_header pathname pid ppid) hlen0 (le_refl _) (by decide)
  rw [hsz] at hm1
  obtain ⟨m2, o2, h2, hok2, ho2⟩ := append_argv_ok argv m1 _ hok1
    (snprintf_ret_in_range (exec_header pathname pid ppid).length)
  obtain ⟨m3, o3, h3, hok3⟩ := append_close_ok m2 o2 hok2 ho2
  refine ⟨m3.takeWhile (· ≠ NUL), ?_, ?_⟩
  · simp only [build_exec_msg, hm1, Option.some_bind, h2, h3, c_str, hok3.2, if_true]
  · have := length_takeWhile_lt m3 hok3.2
    rw [hok3.1] at this
    exact this

/-- C5. Whatever the program path (null included), the argument vector, the
lengths of the arguments, the pid and the ppid, and whatever bytes `msg` held
before: every byte stored while the message is built lands inside the 4096
bytes of `msg` (the build does not fail), the message handed to `sendto` has at
most 4095 bytes, and it is the one message sent when a socket is there. -/
theorem send_execve_msg_bounded (env : ExecEnv) (pathname : Option CStr)
    (argv : Option Argv) (pid ppid : Int) :
    ∃ m, build_exec_msg env.garbage pathname argv pid ppid = some m ∧ m.length ≤ 4095
      ∧ send_execve_to_daemon env pathname argv pid ppid
        = some (if env.socket_ok then
            [Event.sendto ((env.sock_env.getD "/run/sudo-process-recorder.sock".toList).take 107)
              m env.sendto_ok]
          else []) := by
  obtain ⟨m, hm, hlen⟩ := build_exec_msg_ok env.garbage pathname argv pid ppid
  refine ⟨m, hm, ?_, ?_⟩
  · unfold MSG_SIZE at hlen; omega
  · cases hs : env.socket_ok <;> simp [send_execve_to_daemon, hs, hm]

/-- A message that fits: `/bin/sh` run as `sh -c ls` gives the header, the
three arguments and the closing. -/
theorem exec_msg_example :
    build_exec_msg (fun _ => 'x') (some "/bin/sh".toList)
        (some { args := ["sh".toList, "-c".toList, "ls".toList], after := fun _ => Word.null }) 4321 1
      = some ("\x7b\"type\":\"execve\",\"pid\":4321,\"ppid\":1,\"program\":\"/bin/sh\","
                ++ "\"args\":[\"sh\",\"-c\",\"ls\"]\x7d").toList := by
  decide!

/-- C6, at the failing input: `/bin/sh` run as `sh -c` with a 5000-byte script.
The message sent is 4095 bytes long and stops inside the third argument: that
argument is there only in part, and neither its closing quote nor the closing
`]}` of the list and of the object is there. -/
theorem exec_msg_cut_inside_argument :
    build_exec_msg (fun _ => 'x') (some "/bin/sh".toList)
        (some { args := ["sh".toList, "-c".toList, List.replicate 5000 'a']
                after := fun _ => Word.null }) 4321 1
      = some (("\x7b\"type\":\"execve\",\"pid\":4321,\"ppid\":1,\"program\":\"/bin/sh\","
                ++ "\"args\":[\"sh\",\"-c\",\"").toList ++ List.replicate 4019 'a') := by
  decide!

/-! ## `log_execve_to_file` -/

/-- Up to and including the terminator, `argv[i]` is read from the vector. -/
theorem argv_get_of_le (v : Argv) (i : Nat) (h : i ≤ v.args.length) :
    v.get i = match v.args.get? i with
      | some a => Word.str a
      | none => Word.null := by
  unfold Argv.get
  cases hg : v.args.get? i with
  | some a => rfl
  | none =>
    have : v.args.length ≤ i := List.get?_eq_none.mp hg
    have hi : i = v.args.length := le_antisymm h this
    simp [hi]

/-- From an index `i >= 2` inside the vector, the loop prints the arguments
`argv[i]` to `argv[9]` that exist, a space before each, and does not fault. -/
theorem log_args_loop_from (v : Argv) :
    ∀ (fuel i : Nat), i ≤ v.args.length → 2 ≤ i → 11 ≤ fuel + i →
      log_args_loop v fuel i
        = some (((v.args.drop i).take (10 - i)).flatMap (fun a => ' ' :: a)) := by
  intro fuel
  induction fuel with
  | zero =>
    intro i _ _ h3
    have : 10 - i = 0 := by omega
    simp [log_args_loop, this]
  | succ fuel ih =>
    intro i h1 h2 h3
    rw [log_args_loop, argv_get_of_le v i h1]
    cases hg : v.args.get? i with
    | none =>
      have : v.args.length ≤ i := List.get?_eq_none.mp hg
      simp [List.drop_of_length_le this]
    | some a =>
      have hlt : i < v.args.length := by
        by_contra hc
        have := List.get?_eq_none.mpr (not_lt.mp hc)
        rw [this] at hg
        exact Option.noConfusion hg
      have hdrop : v.args.drop i = a :: v.args.drop (i + 1) := by
        rw [List.drop_eq_getElem_cons hlt]
        congr 1
        have := List.get?_eq_getElem? v.args i
        rw [this, List.getElem?_eq_getElem hlt] at hg
        exact Option.some.inj hg
      by_cases h10 : i < 10
      · have hi1 : i > 1 := by omega
        have hsub : 10 - i = (10 - (i + 1)) + 1 := by omega
        simp only [h10, if_true, hi1]
        rw [ih (i + 1) hlt (by omega) (by omega), hdrop, hsub, List.take_succ_cons,
          List.flatMap_cons]
        simp
      · have : 10 - i = 0 := by omega
        simp [h10, this]

/-- `spaced` puts a space before every string but the first. -/
theorem spaced_cons (a : CStr) (l : List CStr) :
    spaced (a :: l) = a ++ l.flatMap (fun b => ' ' :: b) := by
  induction l generalizing a with
  | nil => simp [spaced]
  | cons b t ih => simp [spaced, ih b]

/-- The ten rounds of fuel given to the loop of the readable line are enough:
any two amounts of fuel that reach past index 10 give the same result. -/
theorem log_args_loop_fuel (v : Argv) :
    ∀ (fuel fuel2 i : Nat), 11 ≤ fuel + i → 11 ≤ fuel2 + i →
      log_args_loop v fuel i = log_args_loop v fuel2 i := by
  intro fuel
  induction fuel with
  | zero =>
    intro fuel2 i h1 _
    have hi : ¬ i < 10 := by omega
    cases fuel2 with
    | zero => rfl
    | succ f2 =>
      rw [log_args_loop, log_args_loop]
      cases v.get i <;> simp [hi]
  | succ fuel ih =>
    intro fuel2 i h1 h2
    cases fuel2 with
    | zero =>
      have hi : ¬ i < 10 := by omega
      rw [log_args_loop, log_args_loop]
      cases v.get i <;> simp [hi]
    | succ f2 =>
      rw [log_args_loop, log_args_loop]
      cases v.get i with
      | null => rfl
      | wild => rfl
      | str a =>
        by_cases hi : i < 10
        · simp only [hi, if_true]
          rw [ih f2 (i + 1) (by omega) (by omega)]
        · simp [hi]

/-- The readable line of a vector that has its `argv[0]`: printing it does not
fault, and what is listed is `argv[1]` to `argv[min(N-1, 9)]`, whatever lies in
memory after the vector. -/
theorem log_args_of_nonempty (a0 : CStr) (rest : List CStr) (after : Nat → Word) :
    log_args (some { args := a0 :: rest, after := after })
      = some (log_args_spec (some { args := a0 :: rest, after := after })) := by
  cases rest with
  | nil => simp [log_args, log_args_spec, Argv.get]
  | cons a1 r2 =>
    have hg1 : Argv.get { args := a0 :: a1 :: r2, after := after } 1 = Word.str a1 := by
      simp [Argv.get]
    have hloop := log_args_loop_from { args := a0 :: a1 :: r2, after := after } 9 2
      (by simp) (le_refl _) (by omega)
    have hstep : log_args_loop { args := a0 :: a1 :: r2, after := after } 10 1
        = (log_args_loop { args := a0 :: a1 :: r2, after := after } 9 2).map
            fun t => a1 ++ t := by
      rw [log_args_loop, hg1]
      simp
    simp only [log_args, hg1, hstep, hloop, log_args_spec, List.drop_succ_cons, List.drop_zero,
      List.take_succ_cons, spaced_cons, Option.map_some']

/-- For a null `argv` and for a vector that has its `argv[0]`, printing the
arguments does not fault. -/
theorem log_args_of_argv0 (argv : Option Argv) (h : has_argv0 argv = true) :
    log_args argv = some (log_args_spec argv) := by
  cases argv with
  | none => rfl
  | some v =>
    obtain ⟨args, after⟩ := v
    cases args with
    | nil => simp [has_argv0] at h
    | cons a0 rest => exact log_args_of_nonempty a0 rest after

/-- C10, at the failing input: an empty vector (`argv[0]` is the NULL) whose
terminator is followed in memory by a pointer to the string `SECRET=1`. The
vector has no argument to list, yet the line lists `SECRET=1`, which the loop
reads from beyond the terminator. -/
theorem log_args_of_empty_argv :
    log_args (some { args := []
                     after := fun i => if i = 0 then Word.str "SECRET=1".toList else Word.null })
        = some " SECRET=1".toList
      ∧ log_args_spec
          (some { args := []
                  after := fun i => if i = 0 then Word.str "SECRET=1".toList else Word.null })
        = []
      ∧ exec_log_line "12:00:00".toList 4321 1 "0".toList "/".toList (some "/bin/true".toList)
          (some { args := []
                  after := fun i => if i = 0 then Word.str "SECRET=1".toList else Word.null })
        = some "[12:00:00] Sub-process 4321 (ppid=1, user=0, cwd=/): /bin/true SECRET=1\n".toList := by
  decide

/-- For a null `argv` and for a vector that has its `argv[0]`,
`log_execve_to_file` runs to its end and does not call the genuine primitive. -/
theorem log_execve_to_file_events (env : ExecEnv) (pathname : Option CStr)
    (argv : Option Argv) (pid ppid : Int) (h : has_argv0 argv = true) :
    ∃ logged, log_execve_to_file env pathname argv pid ppid = some logged
      ∧ ∀ e ∈ logged, e.isRealExecve = false := by
  unfold log_execve_to_file
  cases hl : env.log_env with
  | none => exact ⟨[], rfl, by simp⟩
  | some lf =>
    simp only []
    by_cases h1 : lf = []
    · exact ⟨[], by rw [if_pos h1], by simp⟩
    · rw [if_neg h1]
      have hline : ∀ t : LogTarget, ∃ logged,
          (exec_log_line env.timestamp pid ppid ((fmt_d (wrap_int env.uid)).take 255)
              (env.cwd.getD "unknown".toList) pathname argv).map
            (fun line => [Event.logWrite t line]) = some logged
          ∧ ∀ e ∈ logged, e.isRealExecve = false := by
        intro t
        simp only [exec_log_line, log_args_of_argv0 argv h, Option.map_some']
        exact ⟨_, rfl, fun e he => by rw [List.mem_singleton.mp he]; rfl⟩
      by_cases h2 : lf = "stdout".toList
      · rw [if_pos h2]
        exact hline LogTarget.stdout
      · rw [if_neg h2]
        cases hf : env.fopen_ok
        · exact ⟨[], by simp, by simp⟩
        · simp only [if_true]
          exact hline (LogTarget.file lf)

/-! ## `execve` -/

/-- `send_execve_to_daemon` runs to its end and does not call the genuine
primitive. -/
theorem send_execve_to_daemon_events (env : ExecEnv) (pathname : Option CStr)
    (argv : Option Argv) (pid ppid : Int) :
    ∃ sent, send_execve_to_daemon env pathname argv pid ppid = some sent
      ∧ ∀ e ∈ sent, e.isRealExecve = false := by
  obtain ⟨m, hm, _⟩ := build_exec_msg_ok env.garbage pathname argv pid ppid
  cases hs : env.socket_ok
  · exact ⟨[], by simp [send_execve_to_daemon, hs], by simp⟩
  · refine ⟨[Event.sendto ((env.sock_env.getD "/run/sudo-process-recorder.sock".toList).take 107)
      m env.sendto_ok], ?_, ?_⟩
    · simp only [send_execve_to_daemon, hs, hm, Bool.not_true, Bool.false_eq_true,
        if_false, Option.map_some']
    · intro e he
      rw [List.mem_singleton.mp he]
      rfl

/-- Transparency of the wrapper for a null `argv` and for a vector that has its
`argv[0]`, for every pathname and envp and every environment. When the genuine
primitive is resolved, the wrapper calls it exactly once, as the last event and
after the telemetry, with the pathname, argv and envp it was given, and hands
back its result. When it is not resolved, the wrapper hands back -1 and its
only event is a line on the standard error stream. -/
theorem execve_transparent_of_argv0 (env : ExecEnv) (pathname : Option CStr)
    (argv : Option Argv) (envp : Option (List CStr)) (h : has_argv0 argv = true) :
    match env.real_execve with
    | some real =>
      ∃ telemetry : List Event,
        (∀ e ∈ telemetry, e.isRealExecve = false)
          ∧ execve env pathname argv envp
            = some { ret := real pathname argv envp
                     trace := telemetry ++ [Event.realExecve pathname argv envp] }
    | none =>
      ∃ text : CStr,
        execve env pathname argv envp
          = some { ret := some (-1), trace := [Event.stderr text] } := by
  cases hr : env.real_execve with
  | none =>
    exact ⟨"Error: Unable to find real execve: ".toList ++ env.dlerror ++ "\n".toList,
      by simp only [execve, hr]⟩
  | some real =>
    obtain ⟨sent, hsent, hs⟩ := send_execve_to_daemon_events env pathname argv env.pid env.ppid
    obtain ⟨logged, hlogged, hl⟩ :=
      log_execve_to_file_events env pathname argv env.pid env.ppid h
    refine ⟨sent ++ logged, ?_, ?_⟩
    · intro e he
      rcases List.mem_append.mp he with h1 | h1
      · exact hs e h1
      · exact hl e h1
    · simp only [execve, hr, hsent, hlogged, Option.some_bind, Option.map_some']

/-- C1, at the failing input: `/bin/true` is run with an empty vector (`argv[0]`
is the NULL) whose terminator is followed in memory by a word that is not the
address of a string, the genuine primitive is resolved and the readable log goes
to the standard output. Sending the event succeeds, then `log_execve_to_file`
prints that word with `%s` and the process faults: the wrapper never reaches
the call of the genuine primitive. -/
theorem execve_faults_on_empty_argv :
    (send_execve_to_daemon
        { real_execve := some fun _ _ _ => none, dlerror := [], pid := 4321, ppid := 1,
          environ := none, sock_env := none, socket_ok := true, sendto_ok := true,
          garbage := fun _ => 'x', log_env := some "stdout".toList, fopen_ok := true,
          timestamp := "12:00:00".toList, cwd := some "/".toList, uid := 0 }
        (some "/bin/true".toList) (some { args := [], after := fun _ => Word.wild })
        4321 1).isSome = true
      ∧ (log_execve_to_file
        { real_execve := some fun _ _ _ => none, dlerror := [], pid := 4321, ppid := 1,
          environ := none, sock_env := none, socket_ok := true, sendto_ok := true,
          garbage := fun _ => 'x', log_env := some "stdout".toList, fopen_ok := true,
          timestamp := "12:00:00".toList, cwd := some "/".toList, uid := 0 }
        (some "/bin/true".toList) (some { args := [], after := fun _ => Word.wild })
        4321 1).isNone = true
      ∧ (execve
        { real_execve := some fun _ _ _ => none, dlerror := [], pid := 4321, ppid := 1,
          environ := none, sock_env := none, socket_ok := true, sendto_ok := true,
          garbage := fun _ => 'x', log_env := some "stdout".toList, fopen_ok := true,
          timestamp := "12:00:00".toList, cwd := some "/".toList, uid := 0 }
        (some "/bin/true".toList) (some { args := [], after := fun _ => Word.wild })
        none).isNone = true := by
  decide!

/-! ## The Collector -/

/-- The C string of bytes without NUL followed by a NUL is those bytes. -/
theorem takeWhile_append_nul (d : List Char) (h : NUL ∉ d) :
    (d ++ [NUL]).takeWhile (· ≠ NUL) = d := by
  induction d with
  | nil => simp [List.takeWhile]
  | cons c t ih =>
    have hc : c ≠ NUL := fun hc => h (hc ▸ List.mem_cons_self _ _)
    have ht : NUL ∉ t := fun ht => h (List.mem_cons_of_mem _ ht)
    simp only [List.cons_append, List.takeWhile, ne_eq, hc, not_false_eq_true, decide_True,
      List.append_eq]
    simp only [ne_eq] at ih
    rw [ih ht]

/-- One plain round appends the datagram and a newline when the result is
positive, and nothing otherwise. -/
theorem collector_step_plain (sink : List Char) (r : Recv) (h : r.plain = true) :
    collector_step sink r = sink ++ (received [r]).flatMap (· ++ ['\n']) := by
  obtain ⟨dg, ok⟩ := r
  cases dg with
  | none => simp [collector_step, recv, received]
  | some d =>
    simp only [Recv.plain, Bool.and_eq_true, Bool.not_eq_true', decide_eq_true_eq] at h
    obtain ⟨⟨hok, hnul0⟩, hlen⟩ := h
    have hnul : NUL ∉ d := by
      intro hm
      have : d.contains NUL = true := by simpa using hm
      rw [this] at hnul0
      exact Bool.noConfusion hnul0
    have htake : d.take (BUF_SIZE - 1) = d := List.take_of_length_le hlen
    by_cases hd : d = []
    · subst hd; simp [collector_step, recv, received]
    · have hpos : 0 < d.length := List.length_pos.mpr hd
      have hn : ¬ ((d.length : Nat) : Int) ≤ 0 := by omega
      simp only [collector_step, recv, htake, hn, if_false, hok, if_true,
        takeWhile_append_nul d hnul, received, List.filterMap_cons, hd, List.filterMap_nil,
        List.flatMap_cons, List.flatMap_nil, List.append_nil, List.append_assoc]

/-- C7, the claim as stated fails: a datagram of the three bytes `a`, NUL, `b`
is received with the result 3, and the sink gets `a` and a newline only. -/
theorem collector_cuts_at_nul :
    (recv { datagram := some ['a', NUL, 'b'], open_ok := true }).1 = 3
      ∧ collector_loop [] [{ datagram := some ['a', NUL, 'b'], open_ok := true }] = ['a', '\n']
      ∧ collector_loop [] [{ datagram := some ['a', NUL, 'b'], open_ok := true }]
          ≠ ['a', NUL, 'b'] ++ ['\n'] := by
  decide

/-- C7, amended. Over any rounds of the loop in which every datagram that
arrives holds no NUL byte and at most 65535 bytes, and the sink opens, the sink
ends as its previous contents followed, in receipt order, by the payload of each
datagram received with a result `n > 0`, unmodified, and one newline each. -/
theorem collector_loop_appends (sink : List Char) (rs : List Recv)
    (h : ∀ r ∈ rs, r.plain = true) :
    collector_loop sink rs = sink ++ (received rs).flatMap (· ++ ['\n']) := by
  induction rs generalizing sink with
  | nil => simp [collector_loop, received]
  | cons r rest ih =>
    have hr := collector_step_plain sink r (h r (List.mem_cons_self _ _))
    have hrest := ih (collector_step sink r) (fun x hx => h x (List.mem_cons_of_mem _ hx))
    simp only [collector_loop, List.foldl_cons] at hrest ⊢
    rw [hrest, hr]
    simp only [received, List.filterMap_cons, List.filterMap_nil]
    cases hd : r.datagram with
    | none => simp
    | some d =>
      by_cases he : d = []
      · simp [he]
      · simp [he]

/-- C7, amended, on three rounds: a datagram, a failed receive, a datagram. -/
theorem collector_loop_appends_witness :
    collector_loop ['x', '\n']
        [{ datagram := some ['a', 'b'], open_ok := true },
         { datagram := none, open_ok := true },
         { datagram := some ['c'], open_ok := true }]
      = ['x', '\n'] ++ (received
        [{ datagram := some ['a', 'b'], open_ok := true },
         { datagram := none, open_ok := true },
         { datagram := some ['c'], open_ok := true }]).flatMap (· ++ ['\n']) :=
  collector_loop_appends _ _ (by decide)

end SudoRecorder
